import Mathlib

set_option linter.all false

/-! Verification of the mp3-uploader worker (src/src/index.ts): the range-serving
logic of GET /audio/:id, the hash-deduplication scan, and the upload/update/save
handlers, modelled shallowly.  JS strings are Lean strings; JS numbers produced by
parseInt are `Option Int` (none = NaN); the Cloudflare KV and R2 stores are
association lists in listing order; values read back through JSON.parse are
classified by the observations the code makes of them. -/

/-- Does `pat` occur at the head of `cs`? -/
def matchesAt : List Char → List Char → Bool
  | [], _ => true
  | _ :: _, [] => false
  | p :: ps, c :: cs => p == c && matchesAt ps cs

/-- JS `String.prototype.includes`: does `pat` occur anywhere in the list? -/
def hasSub (pat : List Char) : List Char → Bool
  | [] => matchesAt pat []
  | c :: cs => matchesAt pat (c :: cs) || hasSub pat cs

/-- `s.includes(pat)` from JS. -/
def containsSub (s pat : String) : Bool := hasSub pat.data s.data

/-- JS `String.prototype.replace` with a non-global literal pattern and empty
replacement: remove the first occurrence of `pat`. -/
def removeFirstChars (pat : List Char) : List Char → List Char
  | [] => []
  | c :: cs =>
    if matchesAt pat (c :: cs) then (c :: cs).drop pat.length
    else c :: removeFirstChars pat cs

/-- JS `String.prototype.split` with a single-character separator. -/
def splitOnChar (sep : Char) : List Char → List (List Char)
  | [] => [[]]
  | c :: cs =>
    match splitOnChar sep cs with
    | [] => [[]]
    | p :: ps => if c == sep then [] :: p :: ps else (c :: p) :: ps

/-- `s.split(sep)` from JS, for a one-character separator. -/
def splitStr (sep : Char) (s : String) : List String :=
  (splitOnChar sep s.data).map String.mk

/-- Whitespace skipped by JS `parseInt`. -/
def isWs (c : Char) : Bool := c == ' ' || c == '\t' || c == '\n' || c == '\r'

def digitVal (c : Char) : Nat := c.toNat - '0'.toNat

/-- Maximal leading digit run; `none` when there is no digit at all. -/
def parseDigits (cs : List Char) : Option Nat :=
  let ds := cs.takeWhile Char.isDigit
  if ds.isEmpty then none else some (ds.foldl (fun a c => a * 10 + digitVal c) 0)

/-- JS `parseInt(s, 10)`: skip whitespace, optional sign, maximal digit run;
NaN (no digit) is modelled as `none`. -/
def jsParseInt (s : String) : Option Int :=
  match s.data.dropWhile isWs with
  | '-' :: rest => (parseDigits rest).map (fun n => -(n : Int))
  | '+' :: rest => (parseDigits rest).map (fun n => (n : Int))
  | cs => (parseDigits cs).map (fun n => (n : Int))

/-- Body of an HTTP response: `c.body(null, ...)` is `empty`, `c.text` is `text`,
a streamed object body is `bytes`. -/
inductive RespBody where
  | empty : RespBody
  | text : String → RespBody
  | bytes : List Nat → RespBody
deriving DecidableEq

structure HttpResponse where
  status : Nat
  headers : List (String × String)
  body : RespBody
deriving DecidableEq

/-- Association-list lookup, first binding wins (Cloudflare KV `get`). -/
def kvGet {α : Type} : List (String × α) → String → Option α
  | [], _ => none
  | (k, v) :: rest, k' => if k = k' then some v else kvGet rest k'

def lookupHeader (hs : List (String × String)) (name : String) : Option String :=
  kvGet hs name

/-- The headers dict built unconditionally by GET /audio/:id (index.ts:300). -/
def baseHeaders (contentType : String) : List (String × String) :=
  [("Content-Type", contentType), ("Accept-Ranges", "bytes"),
   ("Cache-Control", "public, max-age=3600")]

/-- The 416 response of index.ts:318-325: `Content-Range: bytes */size`, null body. -/
def unsatResponse (contentType : String) (size : Nat) : HttpResponse :=
  { status := 416
    headers := baseHeaders contentType ++ [("Content-Range", "bytes */" ++ toString size)]
    body := RespBody.empty }

/-- `rangeHeader.replace(/bytes=/, '').split('-')` (index.ts:313). -/
def rangeParts (rh : String) : List String :=
  splitStr '-' (String.mk (removeFirstChars "bytes=".data rh.data))

/-- `parseInt(rangeParts[0], 10)` (index.ts:314). -/
def rangeStart (rh : String) : Option Int :=
  jsParseInt ((rangeParts rh).headD "")

/-- `rangeParts[1] ? parseInt(rangeParts[1], 10) : size - 1` (index.ts:315);
a missing or empty second part is falsy and defaults to `size - 1`. -/
def rangeEnd (rh : String) (size : Nat) : Option Int :=
  let p1 := (rangeParts rh).getD 1 ""
  if p1 = "" then some ((size : Int) - 1) else jsParseInt p1

/-- An R2 range read `get(key, {range: {offset, length}})` over a stored byte
list: serves the slice when the requested window is valid and in bounds. -/
def sliceFetch (ob : List Nat) (offset len : Int) : Option (List Nat) :=
  if 0 ≤ offset ∧ 0 < len ∧ offset + len ≤ (ob.length : Int) then
    some ((ob.drop offset.toNat).take len.toNat)
  else none

/-- GET /audio/:id after the object was found (index.ts:295-346): `ob` is the
stored object's bytes (`object.size = ob.length`), `fetchRange` the R2 range
read the code delegates to at index.ts:331-333. -/
def serveAudioRange (rangeHeader : Option String) (contentType : String)
    (ob : List Nat) (fetchRange : Int → Int → Option (List Nat)) : HttpResponse :=
  let size := ob.length
  match rangeHeader with
  | none =>
    { status := 200
      headers := baseHeaders contentType ++ [("Content-Length", toString size)]
      body := RespBody.bytes ob }
  | some rh =>
    match rangeStart rh, rangeEnd rh size with
    | some s, some e =>
      if (size : Int) ≤ s ∨ (size : Int) ≤ e then unsatResponse contentType size
      else
        let chunkSize := e - s + 1
        match fetchRange s chunkSize with
        | none => { status := 416, headers := [], body := RespBody.text "Range not available" }
        | some bs =>
          { status := 206
            headers := baseHeaders contentType ++
              [("Content-Length", toString chunkSize),
               ("Content-Range", "bytes " ++ toString s ++ "-" ++ toString e ++ "/" ++ toString size)]
            body := RespBody.bytes bs }
    | _, _ => unsatResponse contentType size

example : rangeStart "bytes=200-299" = some 200 := by decide
example : rangeEnd "bytes=200-299" 1000 = some 299 := by decide
example : rangeEnd "bytes=200-" 1000 = some 999 := by decide
example : rangeStart "bytes=x-299" = none := by decide
example : (serveAudioRange none "audio/mpeg" [1, 2, 3] (sliceFetch [1, 2, 3])).status = 200 := by decide
example : serveAudioRange (some "bytes=9-12") "a" [1, 2, 3, 4, 5] (sliceFetch [1, 2, 3, 4, 5]) = unsatResponse "a" 5 := by decide
example : (serveAudioRange (some "bytes=1-2") "a" [7, 8, 9, 6] (sliceFetch [7, 8, 9, 6])).body = RespBody.bytes [8, 9] := by decide
example : (serveAudioRange (some "bytes=3-1") "a" [0, 1, 2, 3, 4] (sliceFetch [0, 1, 2, 3, 4])).body = RespBody.text "Range not available" := by decide

/-- Structured tags of an `MP3Meta` record (index.ts:37-44). -/
structure AudioMetadata where
  title : Option String
  artist : Option String
  album : Option String
  year : Option String
  genre : Option (List String)
  duration : Option Nat
deriving DecidableEq

/-- Cover-art reference of an `MP3Meta` record (index.ts:45-49). -/
structure CoverArt where
  id : String
  format : String
  size : Nat
deriving DecidableEq

/-- The `MP3Meta` record type (index.ts:30-50). -/
structure MP3Meta where
  id : String
  filename : String
  contentType : String
  size : Nat
  createdAt : String
  fileHash : String
  metadata : Option AudioMetadata
  coverArt : Option CoverArt
deriving DecidableEq

/-- The `Project` record type (index.ts:19-28). -/
structure Project where
  id : String
  name : String
  description : Option String
  createdAt : String
  updatedAt : String
  lyricsId : Option String
  audioId : String
  assetIds : Option (List String)
deriving DecidableEq

/-- A raw string stored in the audio KV namespace, classified by the only
observations the code makes of it: truthiness, whether `JSON.parse` succeeds,
and what `parsed.fileHash` evaluates to.
`metaVal m`: the JSON text of a record object (as written by the upload path);
`otherJson`: valid non-null JSON without a usable string `fileHash` field;
`nullJson`: the text "null" — parsing succeeds but field access throws;
`invalidJson`: text on which `JSON.parse` throws;
`emptyStr`: the empty string, which is falsy. -/
inductive RawVal where
  | metaVal : MP3Meta → RawVal
  | otherJson : RawVal
  | nullJson : RawVal
  | invalidJson : RawVal
  | emptyStr : RawVal
deriving DecidableEq

/-- A value stored in an R2 bucket: binary content, or text (as written by
`put(key, JSON.stringify(...))`) classified like a KV value. -/
inductive R2Val where
  | bin : List Nat → R2Val
  | txt : RawVal → R2Val
deriving DecidableEq

/-- The four bindings of the worker (index.ts:8-13); each store is an
association list in listing order.  R2 entries carry their httpMetadata
content type; PROJECT_KV values are modelled by the record the code
stringifies, since nothing in the repository parses them back. -/
structure Env where
  audioFiles : List (String × R2Val × String)
  audioKV : List (String × RawVal)
  coverFiles : List (String × R2Val × String)
  projectKV : List (String × Project)
deriving DecidableEq

/-- A `File` form-data entry: name, MIME type and content bytes
(`file.size` is the byte length). -/
structure FormFile where
  name : String
  ftype : String
  bytes : List Nat
deriving DecidableEq

/-- `formData.get(...)` yields a string or a file (absent = `none` outside). -/
inductive FormEntry where
  | str : String → FormEntry
  | file : FormFile → FormEntry
deriving DecidableEq

/-- An embedded picture from `metadata.common.picture` (index.ts:122-127). -/
structure Picture where
  format : String
  data : List Nat
deriving DecidableEq

/-- What `mm.parseBuffer` returns on success: `common` tags plus
`format.duration` (index.ts:119-172); `picture` is the possibly-empty array. -/
structure Extracted where
  picture : List Picture
  title : Option String
  artist : Option String
  album : Option String
  year : Option Nat
  genre : Option (List String)
  duration : Option Nat
deriving DecidableEq

/-- Cloudflare KV/R2 `put`: overwrite an existing binding in place, else
append (list order stands in for listing order). -/
def kvPut {α : Type} : List (String × α) → String → α → List (String × α)
  | [], k, v => [(k, v)]
  | (k', v') :: rest, k, v =>
    if k' = k then (k, v) :: rest else (k', v') :: kvPut rest k v

/-- Does `px` start the string `s`? -/
def strStarts (px s : String) : Bool := matchesAt px.data s.data

/-- `kv.list({prefix: px})` — the keys of the store that begin with `px`,
in listing order. -/
def listKeys {α : Type} (st : List (String × α)) (px : String) : List String :=
  (st.map Prod.fst).filter (fun k => strStarts px k)

/-- The loop body of `findFileByHash` (index.ts:229-237): for each listed key,
`get` it; a falsy read (`null` or `""`) is skipped; `JSON.parse` of invalid
text throws, as does `.fileHash` on a parsed `null`; a parsed value without a
string `fileHash` never equals the hash and is passed over; the first record
whose `fileHash` equals `hash` is returned. -/
def findLoop (kv : List (String × RawVal)) (hash : String) :
    List String → Except Unit (Option MP3Meta)
  | [] => Except.ok none
  | k :: ks =>
    match kvGet kv k with
    | none => findLoop kv hash ks
    | some RawVal.emptyStr => findLoop kv hash ks
    | some (RawVal.metaVal m) =>
      if m.fileHash == hash then Except.ok (some m) else findLoop kv hash ks
    | some RawVal.otherJson => findLoop kv hash ks
    | some RawVal.nullJson => Except.error ()
    | some RawVal.invalidJson => Except.error ()

/-- `findFileByHash(kv, hash)` (index.ts:221-240): list all keys under the
`audio:` namespace and scan them; `Except.error` is a thrown exception. -/
def findFileByHash (kv : List (String × RawVal)) (hash : String) :
    Except Unit (Option MP3Meta) :=
  findLoop kv hash (listKeys kv "audio:")

/-- The record a stored value decodes to, when it is one. -/
def metaOf : Option RawVal → Option MP3Meta
  | some (RawVal.metaVal m) => some m
  | _ => none

/-- Declarative reading of the scan: the first record in listing order whose
`fileHash` equals the hash. -/
def firstHashMatch (kv : List (String × RawVal)) (hash : String) : Option MP3Meta :=
  ((listKeys kv "audio:").filterMap (fun k => metaOf (kvGet kv k))).find?
    (fun m => m.fileHash == hash)

/-- The decodable records stored under the `audio:` namespace. -/
def audioRecords (kv : List (String × RawVal)) : List MP3Meta :=
  kv.filterMap (fun b => if strStarts "audio:" b.1 then metaOf (some b.2) else none)

/-- How many stored records carry the given content hash. -/
def countHash (kv : List (String × RawVal)) (hash : String) : Nat :=
  ((audioRecords kv).filter (fun m => m.fileHash == hash)).length

/-- `saveProject` (index.ts:54-57): stamp `updatedAt` with the save time, then
put under `project:{id}`. -/
def saveProject (pkv : List (String × Project)) (project : Project)
    (saveTime : String) : List (String × Project) :=
  kvPut pkv ("project:" ++ project.id) { project with updatedAt := saveTime }

/-- JS `a || b` for an optional string: empty and absent are both falsy. -/
def jsOr (o : Option String) (d : String) : String :=
  match o with
  | some s => if s = "" then d else s
  | none => d

/-- The `metadata` field built at index.ts:165-174 from a successful parse. -/
def extractedMeta (ex : Extracted) : AudioMetadata :=
  { title := ex.title, artist := ex.artist, album := ex.album,
    year := ex.year.map toString, genre := ex.genre, duration := ex.duration }

/-- Cover-art blob key built at index.ts:124-127:
`{audioId}-cover.{format.split('/')[1] || 'jpg'}`. -/
def coverKeyOf (audioId : String) (pic : Picture) : String :=
  audioId ++ "-cover." ++
    (match (splitStr '/' pic.format).getD 1 "" with
     | "" => "jpg"
     | s => s)

/-- The `coverArtInfo` value of index.ts:136-140: present exactly when the
parsed tags carry at least one picture. -/
def coverInfoOf (audioId : String) (ex : Extracted) : Option CoverArt :=
  match ex.picture.head? with
  | some pic =>
    some { id := audioId ++ "-cover", format := pic.format, size := pic.data.length }
  | none => none

/-- The `MP3Meta` record written by a successful upload (index.ts:158-176). -/
def uploadedMeta (f : FormFile) (fileHash audioId now : String) (ex : Extracted) :
    MP3Meta :=
  { id := audioId, filename := f.name, contentType := f.ftype,
    size := f.bytes.length, createdAt := now, fileHash := fileHash,
    metadata := some (extractedMeta ex), coverArt := coverInfoOf audioId ex }

/-- A stored value the scan can pass over without throwing. -/
def parseSafe : Option RawVal → Prop
  | some RawVal.nullJson => False
  | some RawVal.invalidJson => False
  | _ => True

/-- A stored value the scan passes over without throwing and without matching
the hash. -/
def scanSafe (hash : String) : Option RawVal → Prop
  | some RawVal.nullJson => False
  | some RawVal.invalidJson => False
  | some (RawVal.metaVal m) => (m.fileHash == hash) = false
  | _ => True

/-- Outcome of POST /audio; `badRequest` and `duplicateOf` are sent with
status 400, `serverError` with 500, `uploaded` with 200. -/
inductive UploadResult where
  | badRequest : String → UploadResult
  | duplicateOf : String → String → Option AudioMetadata → UploadResult
  | serverError : String → UploadResult
  | uploaded : String → UploadResult
deriving DecidableEq

/-- HTTP status of an upload outcome. -/
def uploadStatus : UploadResult → Nat
  | UploadResult.badRequest _ => 400
  | UploadResult.duplicateOf _ _ _ => 400
  | UploadResult.serverError _ => 500
  | UploadResult.uploaded _ => 200

/-- POST /audio (index.ts:66-197).  Nondeterministic collaborators are passed
in: `hashFn` is the SHA-256 digest (generateFileHash), `extract` is
`mm.parseBuffer` (`Except.error` = it threw), `audioId`/`projectId` are the
two uuidv4() draws, `now` the timestamp of index.ts:164/182 and `saveNow`
the one taken inside saveProject.  A thrown exception that the handler does
not catch (a corrupt record hit by the dedup scan) surfaces as the
framework's 500. -/
def postAudio (env : Env) (ctHeader : String) (formAudio : Option FormEntry)
    (hashFn : List Nat → String) (extract : List Nat → Except String Extracted)
    (audioId projectId now saveNow : String) : UploadResult × Env :=
  if ¬ containsSub ctHeader "multipart/form-data" then
    (UploadResult.badRequest "Expected multipart/form-data", env)
  else
    match formAudio with
    | none => (UploadResult.badRequest "No Audio uploaded", env)
    | some (FormEntry.str _) => (UploadResult.badRequest "No Audio uploaded", env)
    | some (FormEntry.file f) =>
      if f.ftype ≠ "audio/mpeg" ∧ f.ftype ≠ "audio/mp3" then
        (UploadResult.badRequest "Invalid file type", env)
      else
        let fileHash := hashFn f.bytes
        match findFileByHash env.audioKV fileHash with
        | Except.error _ => (UploadResult.serverError "Internal Server Error", env)
        | Except.ok (some existing) =>
          (UploadResult.duplicateOf existing.id existing.filename existing.metadata, env)
        | Except.ok none =>
          match extract f.bytes with
          | Except.error msg =>
            (UploadResult.serverError ("Error extracting metadata: " ++ msg), env)
          | Except.ok ex =>
            let env1 :=
              match ex.picture.head? with
              | some pic =>
                { env with coverFiles := kvPut env.coverFiles (coverKeyOf audioId pic) (R2Val.bin pic.data, pic.format) }
              | none => env
            let key := audioId ++ ".mp3"
            let env2 := { env1 with audioFiles := kvPut env1.audioFiles key (R2Val.bin f.bytes, f.ftype) }
            let meta := uploadedMeta f fileHash audioId now ex
            let env3 := { env2 with audioKV := kvPut env2.audioKV ("audio:" ++ audioId) (RawVal.metaVal meta) }
            let project : Project :=
              { id := projectId,
                name := jsOr ex.title "New Project" ++ " - " ++ jsOr ex.artist "Unknown Artist",
                description := none, createdAt := now, updatedAt := now,
                lyricsId := none, audioId := audioId, assetIds := none }
            let env4 := { env3 with projectKV := saveProject env3.projectKV project saveNow }
            (UploadResult.uploaded audioId, env4)

/-- What the parsed value of a stored text is, for PUT /audio/:id. -/
inductive JsParsed where
  | meta : MP3Meta → JsParsed
  | nullv : JsParsed
  | other : JsParsed
deriving DecidableEq

/-- `JSON.parse(await existing.text())` on an R2 value: binary audio bytes do
not form valid JSON text, so parsing them throws. -/
def parseR2Text : R2Val → Except Unit JsParsed
  | R2Val.bin _ => Except.error ()
  | R2Val.txt (RawVal.metaVal m) => Except.ok (JsParsed.meta m)
  | R2Val.txt RawVal.otherJson => Except.ok JsParsed.other
  | R2Val.txt RawVal.nullJson => Except.ok JsParsed.nullv
  | R2Val.txt RawVal.invalidJson => Except.error ()
  | R2Val.txt RawVal.emptyStr => Except.error ()

/-- Outcome of PUT /audio/:id. -/
inductive PutResult where
  | notFound : PutResult
  | badRequest : String → PutResult
  | serverError : String → PutResult
  | updated : String → PutResult
deriving DecidableEq

/-- PUT /audio/:id (index.ts:357-383).  The existence check reads
`audio:{id}` from the AUDIO_FILES R2 bucket (index.ts:359) — not from
AUDIO_KV — and the refreshed record is written back to the same bucket
(index.ts:380) with no httpMetadata.  Spreading a parsed non-object keeps
none of its fields, so the rewrite of such a value is not a record. -/
def putAudio (env : Env) (id : String) (file : Option FormFile) (now : String) :
    PutResult × Env :=
  match kvGet env.audioFiles ("audio:" ++ id) with
  | none => (PutResult.notFound, env)
  | some (v, _) =>
    match file with
    | none => (PutResult.badRequest "No file provided", env)
    | some f =>
      let env1 := { env with audioFiles := kvPut env.audioFiles (id ++ ".mp3") (R2Val.bin f.bytes, f.ftype) }
      match parseR2Text v with
      | Except.error _ => (PutResult.serverError "Internal Server Error", env1)
      | Except.ok pj =>
        let newVal : RawVal :=
          match pj with
          | JsParsed.meta m =>
            RawVal.metaVal { m with filename := f.name, contentType := f.ftype,
                                    size := f.bytes.length, createdAt := now }
          | _ => RawVal.otherJson
        let env2 := { env1 with audioFiles := kvPut env1.audioFiles ("audio:" ++ id) (R2Val.txt newVal, "") }
        (PutResult.updated id, env2)

example :
    findFileByHash [("audio:1", RawVal.invalidJson)] "h" = Except.error () := rfl
example :
    findFileByHash [("audio:1", RawVal.emptyStr)] "h" = Except.ok none := rfl

theorem kvGet_kvPut_self {α : Type} (st : List (String × α)) (k : String) (v : α) :
    kvGet (kvPut st k v) k = some v := by
  induction st with
  | nil => simp [kvPut, kvGet]
  | cons b rest ih =>
    obtain ⟨k', v'⟩ := b
    by_cases h : k' = k
    · simp [kvPut, h, kvGet]
    · simp [kvPut, h, kvGet, ih]

theorem kvGet_eq_none_of_not_mem {α : Type} (st : List (String × α)) (k : String)
    (h : k ∉ st.map Prod.fst) : kvGet st k = none := by
  induction st with
  | nil => rfl
  | cons b rest ih =>
    obtain ⟨k', v'⟩ := b
    simp only [List.map_cons, List.mem_cons] at h
    push_neg at h
    have hne : ¬ k' = k := fun he => h.1 he.symm
    simp [kvGet, hne, ih h.2]

theorem kvGet_isSome_of_mem {α : Type} (st : List (String × α)) (k : String)
    (h : k ∈ st.map Prod.fst) : ∃ v, kvGet st k = some v := by
  induction st with
  | nil => simp at h
  | cons b rest ih =>
    obtain ⟨k', v'⟩ := b
    by_cases he : k' = k
    · exact ⟨v', by simp [kvGet, he]⟩
    · simp only [List.map_cons, List.mem_cons] at h
      rcases h with h | h
      · exact absurd h.symm he
      · obtain ⟨v, hv⟩ := ih h
        exact ⟨v, by simp [kvGet, he, hv]⟩

theorem kvGet_of_nodup_mem {α : Type} (st : List (String × α)) (k : String) (v : α)
    (hnd : (st.map Prod.fst).Nodup) (h : (k, v) ∈ st) : kvGet st k = some v := by
  induction st with
  | nil => simp at h
  | cons b rest ih =>
    obtain ⟨k', v'⟩ := b
    simp only [List.map_cons, List.nodup_cons] at hnd
    rcases List.mem_cons.mp h with h | h
    · injection h with hk hv
      subst hk
      subst hv
      simp [kvGet]
    · have hk : ¬ k' = k := by
        intro he
        exact hnd.1 (he ▸ (List.mem_map.mpr ⟨(k, v), h, rfl⟩))
      simp [kvGet, hk, ih hnd.2 h]

theorem kvPut_of_not_mem {α : Type} (st : List (String × α)) (k : String) (v : α)
    (h : k ∉ st.map Prod.fst) : kvPut st k v = st ++ [(k, v)] := by
  induction st with
  | nil => rfl
  | cons b rest ih =>
    obtain ⟨k', v'⟩ := b
    simp only [List.map_cons, List.mem_cons] at h
    push_neg at h
    have hne : ¬ k' = k := fun he => h.1 he.symm
    simp [kvPut, hne, ih h.2]

theorem kvGet_append_left {α : Type} (l1 l2 : List (String × α)) (k : String) (v : α)
    (h : kvGet l1 k = some v) : kvGet (l1 ++ l2) k = some v := by
  induction l1 with
  | nil => simp [kvGet] at h
  | cons b rest ih =>
    obtain ⟨k', v'⟩ := b
    by_cases he : k' = k
    · simp only [kvGet, if_pos he] at h ⊢
      exact h
    · simp only [List.cons_append, kvGet, if_neg he] at h ⊢
      exact ih h

theorem kvGet_append_right {α : Type} (l1 l2 : List (String × α)) (k : String)
    (h : kvGet l1 k = none) : kvGet (l1 ++ l2) k = kvGet l2 k := by
  induction l1 with
  | nil => rfl
  | cons b rest ih =>
    obtain ⟨k', v'⟩ := b
    by_cases he : k' = k
    · simp only [kvGet, if_pos he] at h
      simp at h
    · simp only [List.cons_append, kvGet, if_neg he] at h ⊢
      exact ih h

/-- C9: for every ProjectRecord passed to saveProject, the stored record's
updatedAt field is the save time, overwriting whatever the caller supplied,
while every other field of the stored record equals the caller's. -/
theorem saveProject_stamps_updatedAt (pkv : List (String × Project)) (p : Project)
    (t : String) :
    kvGet (saveProject pkv p t) ("project:" ++ p.id) = some { p with updatedAt := t } ∧
    ({ p with updatedAt := t } : Project).updatedAt = t ∧
    ({ p with updatedAt := t } : Project).id = p.id ∧
    ({ p with updatedAt := t } : Project).name = p.name ∧
    ({ p with updatedAt := t } : Project).description = p.description ∧
    ({ p with updatedAt := t } : Project).createdAt = p.createdAt ∧
    ({ p with updatedAt := t } : Project).lyricsId = p.lyricsId ∧
    ({ p with updatedAt := t } : Project).audioId = p.audioId ∧
    ({ p with updatedAt := t } : Project).assetIds = p.assetIds := by
  refine ⟨kvGet_kvPut_self .., rfl, rfl, rfl, rfl, rfl, rfl, rfl, rfl⟩

/-- C8: for every totalSize > 0, a playback request with no range header yields
FullBody (HTTP 200) serving the whole object, with Content-Length equal to
totalSize and Accept-Ranges equal to "bytes". -/
theorem range_full_body (ct : String) (ob : List Nat)
    (fetch : Int → Int → Option (List Nat)) (hpos : 0 < ob.length) :
    serveAudioRange none ct ob fetch =
      { status := 200
        headers := baseHeaders ct ++ [("Content-Length", toString ob.length)]
        body := RespBody.bytes ob } ∧
    lookupHeader (serveAudioRange none ct ob fetch).headers "Content-Length" =
      some (toString ob.length) ∧
    lookupHeader (serveAudioRange none ct ob fetch).headers "Accept-Ranges" =
      some "bytes" := by
  refine ⟨rfl, rfl, rfl⟩

theorem range_full_body_witness :
    0 < ([3, 1, 4] : List Nat).length ∧
    (serveAudioRange none "audio/mpeg" [3, 1, 4] (sliceFetch [3, 1, 4])).status = 200 ∧
    lookupHeader (serveAudioRange none "audio/mpeg" [3, 1, 4]
      (sliceFetch [3, 1, 4])).headers "Content-Length" = some "3" ∧
    lookupHeader (serveAudioRange none "audio/mpeg" [3, 1, 4]
      (sliceFetch [3, 1, 4])).headers "Accept-Ranges" = some "bytes" := by
  have h := range_full_body "audio/mpeg" [3, 1, 4] (sliceFetch [3, 1, 4]) (by decide)
  exact ⟨by decide, by rw [h.1], h.2.1, h.2.2⟩

/-- C1: for every totalSize and every range header parsing to integers
start, end with 0 <= start <= end < totalSize, the playback response is
PartialContent (HTTP 206) fetching exactly end - start + 1 bytes at offset
start, with Content-Length = end - start + 1 and
Content-Range = "bytes {start}-{end}/{totalSize}". -/
theorem range_partial_content_valid (rh ct : String) (ob : List Nat) (s e : Int)
    (hs : rangeStart rh = some s) (he : rangeEnd rh ob.length = some e)
    (h0 : 0 ≤ s) (hse : s ≤ e) (hlt : e < (ob.length : Int)) :
    serveAudioRange (some rh) ct ob (sliceFetch ob) =
      { status := 206
        headers := baseHeaders ct ++
          [("Content-Length", toString (e - s + 1)),
           ("Content-Range",
            "bytes " ++ toString s ++ "-" ++ toString e ++ "/" ++ toString ob.length)]
        body := RespBody.bytes ((ob.drop s.toNat).take (e - s + 1).toNat) } ∧
    ((ob.drop s.toNat).take (e - s + 1).toNat).length = (e - s + 1).toNat ∧
    lookupHeader (serveAudioRange (some rh) ct ob (sliceFetch ob)).headers
      "Content-Length" = some (toString (e - s + 1)) ∧
    lookupHeader (serveAudioRange (some rh) ct ob (sliceFetch ob)).headers
      "Content-Range" =
      some ("bytes " ++ toString s ++ "-" ++ toString e ++ "/" ++ toString ob.length) := by
  have hmain : serveAudioRange (some rh) ct ob (sliceFetch ob) =
      { status := 206
        headers := baseHeaders ct ++
          [("Content-Length", toString (e - s + 1)),
           ("Content-Range",
            "bytes " ++ toString s ++ "-" ++ toString e ++ "/" ++ toString ob.length)]
        body := RespBody.bytes ((ob.drop s.toNat).take (e - s + 1).toNat) } := by
    have hcond : ¬ ((ob.length : Int) ≤ s ∨ (ob.length : Int) ≤ e) := by omega
    have hfetch : sliceFetch ob s (e - s + 1) =
        some ((ob.drop s.toNat).take (e - s + 1).toNat) := by
      have : 0 ≤ s ∧ 0 < e - s + 1 ∧ s + (e - s + 1) ≤ (ob.length : Int) := by omega
      simp [sliceFetch, this]
    simp [serveAudioRange, hs, he, hcond, hfetch]
  have hlen : ((ob.drop s.toNat).take (e - s + 1).toNat).length = (e - s + 1).toNat := by
    simp only [List.length_take, List.length_drop]
    omega
  refine ⟨hmain, hlen, ?_, ?_⟩
  · rw [hmain]
    rfl
  · rw [hmain]
    rfl

theorem range_partial_content_valid_witness :
    rangeStart "bytes=1-2" = some 1 ∧
    rangeEnd "bytes=1-2" ([9, 8, 7, 6] : List Nat).length = some 2 ∧
    (serveAudioRange (some "bytes=1-2") "audio/mpeg" [9, 8, 7, 6]
      (sliceFetch [9, 8, 7, 6])).status = 206 ∧
    (serveAudioRange (some "bytes=1-2") "audio/mpeg" [9, 8, 7, 6]
      (sliceFetch [9, 8, 7, 6])).body = RespBody.bytes [8, 7] ∧
    lookupHeader (serveAudioRange (some "bytes=1-2") "audio/mpeg" [9, 8, 7, 6]
      (sliceFetch [9, 8, 7, 6])).headers "Content-Length" = some "2" ∧
    lookupHeader (serveAudioRange (some "bytes=1-2") "audio/mpeg" [9, 8, 7, 6]
      (sliceFetch [9, 8, 7, 6])).headers "Content-Range" = some "bytes 1-2/4" := by
  have h := range_partial_content_valid "bytes=1-2" "audio/mpeg" [9, 8, 7, 6] 1 2
    (by decide) (by decide) (by decide) (by decide) (by decide)
  refine ⟨by decide, by decide, ?_, ?_, ?_, ?_⟩
  · rw [h.1]
  · rw [h.1]
    decide
  · rw [h.2.2.1]
    decide
  · rw [h.2.2.2]
    decide

/-- C2: for every totalSize and every present range header in which start or
end fails to parse as a number, or start >= totalSize, or end >= totalSize,
the playback response is Unsatisfiable (HTTP 416) with Content-Range equal to
"bytes */{totalSize}" and an empty body. -/
theorem range_unsatisfiable (rh ct : String) (ob : List Nat)
    (fetch : Int → Int → Option (List Nat))
    (h : rangeStart rh = none ∨ rangeEnd rh ob.length = none ∨
         (∃ s, rangeStart rh = some s ∧ (ob.length : Int) ≤ s) ∨
         (∃ e, rangeEnd rh ob.length = some e ∧ (ob.length : Int) ≤ e)) :
    serveAudioRange (some rh) ct ob fetch = unsatResponse ct ob.length ∧
    (unsatResponse ct ob.length).status = 416 ∧
    lookupHeader (unsatResponse ct ob.length).headers "Content-Range" =
      some ("bytes */" ++ toString ob.length) ∧
    (unsatResponse ct ob.length).body = RespBody.empty := by
  refine ⟨?_, rfl, rfl, rfl⟩
  rcases h with h | h | ⟨s, hs, hge⟩ | ⟨e, he, hge⟩
  · cases hre : rangeEnd rh ob.length with
    | none => simp [serveAudioRange, h, hre]
    | some e => simp [serveAudioRange, h, hre]
  · cases hrs : rangeStart rh with
    | none => simp [serveAudioRange, h, hrs]
    | some s => simp [serveAudioRange, h, hrs]
  · cases hre : rangeEnd rh ob.length with
    | none => simp [serveAudioRange, hs, hre]
    | some e =>
      have : (ob.length : Int) ≤ s ∨ (ob.length : Int) ≤ e := Or.inl hge
      simp [serveAudioRange, hs, hre, this]
  · cases hrs : rangeStart rh with
    | none => simp [serveAudioRange, he, hrs]
    | some s =>
      have : (ob.length : Int) ≤ s ∨ (ob.length : Int) ≤ e := Or.inr hge
      simp [serveAudioRange, he, hrs, this]

theorem range_unsatisfiable_witness :
    (∃ e, rangeEnd "bytes=2-12" ([1, 2, 3, 4, 5] : List Nat).length = some e ∧
      (([1, 2, 3, 4, 5] : List Nat).length : Int) ≤ e) ∧
    (serveAudioRange (some "bytes=2-12") "audio/mpeg" [1, 2, 3, 4, 5]
      (sliceFetch [1, 2, 3, 4, 5])).status = 416 ∧
    lookupHeader (serveAudioRange (some "bytes=2-12") "audio/mpeg" [1, 2, 3, 4, 5]
      (sliceFetch [1, 2, 3, 4, 5])).headers "Content-Range" = some "bytes */5" ∧
    (serveAudioRange (some "bytes=2-12") "audio/mpeg" [1, 2, 3, 4, 5]
      (sliceFetch [1, 2, 3, 4, 5])).body = RespBody.empty := by
  have h := range_unsatisfiable "bytes=2-12" "audio/mpeg" [1, 2, 3, 4, 5]
    (sliceFetch [1, 2, 3, 4, 5])
    (Or.inr (Or.inr (Or.inr ⟨12, by decide, by decide⟩)))
  refine ⟨⟨12, by decide, by decide⟩, ?_, ?_, ?_⟩
  · rw [h.1]
    rfl
  · rw [h.1]
    decide
  · rw [h.1]
    rfl

/-- C3 (code evidence): a range header whose parsed start exceeds its parsed
end while both are below totalSize passes the validity check of
index.ts:318 untouched; the handler then requests chunkSize = end - start + 1
= -1 bytes from the blob store instead of answering with the header-only 416
Unsatisfiable response — whatever the store replies, the response is either
the text-body "Range not available" 416 or a 206 with Content-Length -1,
never the Unsatisfiable response with Content-Range "bytes */5". -/
theorem range_start_gt_end_bypasses_check (fetch : Int → Int → Option (List Nat)) :
    serveAudioRange (some "bytes=3-1") "audio/mpeg" [0, 1, 2, 3, 4] fetch =
      (match fetch 3 (-1) with
       | none => { status := 416, headers := [], body := RespBody.text "Range not available" }
       | some bs =>
         { status := 206
           headers := baseHeaders "audio/mpeg" ++
             [("Content-Length", toString (-1 : Int)), ("Content-Range", "bytes 3-1/5")]
           body := RespBody.bytes bs }) := by
  cases hf : fetch 3 (-1) with
  | none =>
    show (match fetch 3 (-1) with
          | none => _
          | some bs => _) = _
    rw [hf]
  | some bs =>
    show (match fetch 3 (-1) with
          | none => _
          | some bs => _) = _
    rw [hf]
    rfl

theorem mem_of_kvGet {α : Type} (st : List (String × α)) (k : String) (v : α)
    (h : kvGet st k = some v) : (k, v) ∈ st := by
  induction st with
  | nil => simp [kvGet] at h
  | cons b rest ih =>
    obtain ⟨k', v'⟩ := b
    by_cases he : k' = k
    · simp only [kvGet, if_pos he] at h
      injection h with h
      subst he
      subst h
      exact List.mem_cons_self ..
    · simp only [kvGet, if_neg he] at h
      exact List.mem_cons_of_mem _ (ih h)

theorem metaOf_eq_some (o : Option RawVal) (m : MP3Meta) (h : metaOf o = some m) :
    o = some (RawVal.metaVal m) := by
  cases o with
  | none => simp [metaOf] at h
  | some v =>
    cases v with
    | metaVal m' =>
      simp only [metaOf] at h
      injection h with h
      rw [h]
    | otherJson => simp [metaOf] at h
    | nullJson => simp [metaOf] at h
    | invalidJson => simp [metaOf] at h
    | emptyStr => simp [metaOf] at h

/-- The scan expressed declaratively: when no listed key holds a value that
makes `JSON.parse` (or the subsequent field access) throw, the loop returns
the first decoded record whose hash matches. -/
theorem findLoop_char (kv : List (String × RawVal)) (hash : String)
    (keys : List String) (h : ∀ k ∈ keys, parseSafe (kvGet kv k)) :
    findLoop kv hash keys =
      Except.ok ((keys.filterMap (fun k => metaOf (kvGet kv k))).find?
        (fun m => m.fileHash == hash)) := by
  induction keys with
  | nil => rfl
  | cons k ks ih =>
    have hk := h k (List.mem_cons_self k ks)
    have ih' := ih (fun k' hk' => h k' (List.mem_cons_of_mem k hk'))
    cases hkv : kvGet kv k with
    | none => simp [findLoop, hkv, ih', metaOf]
    | some v =>
      cases v with
      | metaVal m =>
        cases hm : (m.fileHash == hash) with
        | true => simp [findLoop, hkv, hm, metaOf, List.find?]
        | false => simp [findLoop, hkv, hm, ih', metaOf, List.find?]
      | otherJson => simp [findLoop, hkv, ih', metaOf]
      | emptyStr => simp [findLoop, hkv, ih', metaOf]
      | nullJson =>
        rw [hkv] at hk
        exact absurd hk (by simp [parseSafe])
      | invalidJson =>
        rw [hkv] at hk
        exact absurd hk (by simp [parseSafe])

/-- A scan that completed without a match saw, at every listed key, a value it
could pass over without throwing and without matching. -/
theorem findLoop_eq_ok_none (kv : List (String × RawVal)) (hash : String)
    (keys : List String) (h : findLoop kv hash keys = Except.ok none) :
    ∀ k ∈ keys, scanSafe hash (kvGet kv k) := by
  induction keys with
  | nil =>
    intro k hk
    simp at hk
  | cons k ks ih =>
    have hh := h
    simp only [findLoop] at hh
    intro k' hk'
    rcases List.mem_cons.mp hk' with he | hmem
    · subst he
      cases hkv : kvGet kv k' with
      | none => simp [scanSafe]
      | some v =>
        rw [hkv] at hh
        cases v with
        | emptyStr => simp [scanSafe]
        | otherJson => simp [scanSafe]
        | nullJson => simp at hh
        | invalidJson => simp at hh
        | metaVal m =>
          cases hm : (m.fileHash == hash) with
          | true =>
            simp [hm] at hh
          | false => simp [scanSafe, hm]
    · cases hkv : kvGet kv k with
      | none =>
        rw [hkv] at hh
        exact ih hh k' hmem
      | some v =>
        rw [hkv] at hh
        cases v with
        | emptyStr => exact ih hh k' hmem
        | otherJson => exact ih hh k' hmem
        | nullJson => simp at hh
        | invalidJson => simp at hh
        | metaVal m =>
          cases hm : (m.fileHash == hash) with
          | true => simp [hm] at hh
          | false =>
            simp only [hm, Bool.false_eq_true, if_false] at hh
            exact ih hh k' hmem

/-- C5 counterexample: with a single stored record whose value JSON.parse
cannot decode, the scan does not skip it — `findFileByHash` itself throws
(index.ts:233 calls JSON.parse outside any try/catch), refuting "a record
whose stored value cannot be decoded is silently skipped and never causes
the scan itself to fail". -/
theorem findFileByHash_throws_on_undecodable :
    findFileByHash [("audio:1", RawVal.invalidJson)] "h" = Except.error () ∧
    ∀ o : Option MP3Meta, findFileByHash [("audio:1", RawVal.invalidJson)] "h" ≠ Except.ok o := by
  refine ⟨rfl, ?_⟩
  intro o h
  simp [findFileByHash, listKeys, findLoop, kvGet, strStarts, matchesAt] at h

/-- C5 amended: `findFileByHash` scans all records under the `audio:` key
namespace and returns the first record in listing order whose fileHash equals
the given hash, or none when no record matches; a missing or empty (falsy)
read and a decoded value that is not a record are silently skipped — but a
stored value on which JSON.parse (or the field access after parsing null)
throws makes the scan itself fail. -/
theorem findFileByHash_first_match (kv : List (String × RawVal)) (hash : String)
    (hgood : ∀ b ∈ kv, b.2 ≠ RawVal.nullJson ∧ b.2 ≠ RawVal.invalidJson) :
    findFileByHash kv hash = Except.ok (firstHashMatch kv hash) := by
  apply findLoop_char
  intro k hk
  cases hkv : kvGet kv k with
  | none => simp [parseSafe]
  | some v =>
    have hb := hgood (k, v) (mem_of_kvGet kv k v hkv)
    cases v with
    | metaVal m => simp [parseSafe]
    | otherJson => simp [parseSafe]
    | emptyStr => simp [parseSafe]
    | nullJson => exact absurd rfl hb.1
    | invalidJson => exact absurd rfl hb.2

theorem findFileByHash_first_match_witness :
    (∀ b ∈ ([("audio:1", RawVal.metaVal ⟨"id1", "a.mp3", "audio/mpeg", 3, "t1", "h1", none, none⟩),
             ("other:x", RawVal.metaVal ⟨"idx", "x.mp3", "audio/mpeg", 9, "tx", "h2", none, none⟩),
             ("audio:2", RawVal.otherJson),
             ("audio:3", RawVal.metaVal ⟨"id3", "b.mp3", "audio/mpeg", 5, "t3", "h2", none, none⟩),
             ("audio:4", RawVal.metaVal ⟨"id4", "c.mp3", "audio/mpeg", 7, "t4", "h2", none, none⟩)] :
            List (String × RawVal)),
      b.2 ≠ RawVal.nullJson ∧ b.2 ≠ RawVal.invalidJson) ∧
    findFileByHash
      [("audio:1", RawVal.metaVal ⟨"id1", "a.mp3", "audio/mpeg", 3, "t1", "h1", none, none⟩),
       ("other:x", RawVal.metaVal ⟨"idx", "x.mp3", "audio/mpeg", 9, "tx", "h2", none, none⟩),
       ("audio:2", RawVal.otherJson),
       ("audio:3", RawVal.metaVal ⟨"id3", "b.mp3", "audio/mpeg", 5, "t3", "h2", none, none⟩),
       ("audio:4", RawVal.metaVal ⟨"id4", "c.mp3", "audio/mpeg", 7, "t4", "h2", none, none⟩)]
      "h2" =
      Except.ok (firstHashMatch
        [("audio:1", RawVal.metaVal ⟨"id1", "a.mp3", "audio/mpeg", 3, "t1", "h1", none, none⟩),
         ("other:x", RawVal.metaVal ⟨"idx", "x.mp3", "audio/mpeg", 9, "tx", "h2", none, none⟩),
         ("audio:2", RawVal.otherJson),
         ("audio:3", RawVal.metaVal ⟨"id3", "b.mp3", "audio/mpeg", 5, "t3", "h2", none, none⟩),
         ("audio:4", RawVal.metaVal ⟨"id4", "c.mp3", "audio/mpeg", 7, "t4", "h2", none, none⟩)]
        "h2") ∧
    firstHashMatch
      [("audio:1", RawVal.metaVal ⟨"id1", "a.mp3", "audio/mpeg", 3, "t1", "h1", none, none⟩),
       ("other:x", RawVal.metaVal ⟨"idx", "x.mp3", "audio/mpeg", 9, "tx", "h2", none, none⟩),
       ("audio:2", RawVal.otherJson),
       ("audio:3", RawVal.metaVal ⟨"id3", "b.mp3", "audio/mpeg", 5, "t3", "h2", none, none⟩),
       ("audio:4", RawVal.metaVal ⟨"id4", "c.mp3", "audio/mpeg", 7, "t4", "h2", none, none⟩)]
      "h2" = some ⟨"id3", "b.mp3", "audio/mpeg", 5, "t3", "h2", none, none⟩ := by
  refine ⟨by decide, findFileByHash_first_match _ _ (by decide), by decide⟩

theorem matchesAt_append (l r : List Char) : matchesAt l (l ++ r) = true := by
  induction l with
  | nil => rfl
  | cons c cs ih => simp [matchesAt, ih]

theorem strStarts_append (px rest : String) : strStarts px (px ++ rest) = true := by
  show matchesAt px.data (px ++ rest).data = true
  rw [String.data_append]
  exact matchesAt_append px.data rest.data

theorem listKeys_append_single {α : Type} (st : List (String × α)) (k : String)
    (v : α) (px : String) (h : strStarts px k = true) :
    listKeys (st ++ [(k, v)]) px = listKeys st px ++ [k] := by
  simp [listKeys, List.filter_append, h]

theorem find?_append_all_neg {α : Type} (l1 l2 : List α) (p : α → Bool)
    (h : ∀ x ∈ l1, p x = false) : (l1 ++ l2).find? p = l2.find? p := by
  induction l1 with
  | nil => rfl
  | cons a l ih =>
    have ha := h a (List.mem_cons_self a l)
    rw [List.cons_append, List.find?_cons_of_neg _ (by simp [ha])]
    exact ih (fun x hx => h x (List.mem_cons_of_mem a hx))

/-- Inserting a fresh record whose hash matches into a store whose scan came
up empty makes the scan return exactly that record. -/
theorem findFileByHash_after_put (kv : List (String × RawVal)) (hash : String)
    (k : String) (m : MP3Meta)
    (hnone : findFileByHash kv hash = Except.ok none)
    (hpx : strStarts "audio:" k = true)
    (hm : (m.fileHash == hash) = true)
    (hfresh : k ∉ kv.map Prod.fst) :
    findFileByHash (kvPut kv k (RawVal.metaVal m)) hash = Except.ok (some m) := by
  have hsafe := findLoop_eq_ok_none kv hash (listKeys kv "audio:") hnone
  rw [kvPut_of_not_mem kv k (RawVal.metaVal m) hfresh]
  have hgetk : kvGet (kv ++ [(k, RawVal.metaVal m)]) k = some (RawVal.metaVal m) := by
    rw [kvGet_append_right kv _ k (kvGet_eq_none_of_not_mem kv k hfresh)]
    simp [kvGet]
  have hold : ∀ k' ∈ listKeys kv "audio:",
      kvGet (kv ++ [(k, RawVal.metaVal m)]) k' = kvGet kv k' := by
    intro k' hk'
    have hk'mem : k' ∈ kv.map Prod.fst := (List.mem_filter.mp hk').1
    obtain ⟨v, hv⟩ := kvGet_isSome_of_mem kv k' hk'mem
    rw [hv]
    exact kvGet_append_left kv _ k' v hv
  unfold findFileByHash
  rw [listKeys_append_single kv k (RawVal.metaVal m) "audio:" hpx]
  rw [findLoop_char _ hash _ ?hsafe]
  case hsafe =>
    intro k' hk'
    rcases List.mem_append.mp hk' with hmem | hmem
    · rw [hold k' hmem]
      have := hsafe k' hmem
      cases hkv : kvGet kv k' with
      | none => simp [parseSafe]
      | some v =>
        rw [hkv] at this
        cases v with
        | metaVal m' => simp [parseSafe]
        | otherJson => simp [parseSafe]
        | emptyStr => simp [parseSafe]
        | nullJson => exact absurd this (by simp [scanSafe])
        | invalidJson => exact absurd this (by simp [scanSafe])
    · rw [List.mem_singleton.mp hmem, hgetk]
      simp [parseSafe]
  rw [List.filterMap_append]
  rw [find?_append_all_neg _ _ _ ?hneg]
  case hneg =>
    intro m' hm'
    obtain ⟨k', hk', hmk⟩ := List.mem_filterMap.mp hm'
    rw [hold k' hk'] at hmk
    have hv := metaOf_eq_some _ _ hmk
    have := hsafe k' hk'
    rw [hv] at this
    exact this
  simp [hgetk, metaOf, List.find?, hm]

theorem countHash_eq_zero (kv : List (String × RawVal)) (hash : String)
    (hnd : (kv.map Prod.fst).Nodup)
    (hnone : findFileByHash kv hash = Except.ok none) :
    countHash kv hash = 0 := by
  have hsafe := findLoop_eq_ok_none kv hash (listKeys kv "audio:") hnone
  unfold countHash
  rw [List.length_eq_zero, List.filter_eq_nil]
  intro m hm
  obtain ⟨⟨k, v⟩, hb, hfv⟩ := List.mem_filterMap.mp hm
  by_cases hpx : strStarts "audio:" k = true
  · rw [if_pos hpx] at hfv
    have hv := metaOf_eq_some _ _ hfv
    injection hv with hv
    have hv' : v = RawVal.metaVal m := hv
    have hkin : k ∈ listKeys kv "audio:" :=
      List.mem_filter.mpr ⟨List.mem_map.mpr ⟨(k, v), hb, rfl⟩, hpx⟩
    have hsk := hsafe k hkin
    rw [kvGet_of_nodup_mem kv k v hnd hb, hv'] at hsk
    simp only [scanSafe] at hsk
    simp [hsk]
  · rw [if_neg hpx] at hfv
    simp at hfv

theorem countHash_append_match (kv : List (String × RawVal)) (hash : String)
    (k : String) (m : MP3Meta) (hpx : strStarts "audio:" k = true)
    (hm : (m.fileHash == hash) = true) :
    countHash (kv ++ [(k, RawVal.metaVal m)]) hash = countHash kv hash + 1 := by
  unfold countHash audioRecords
  rw [List.filterMap_append, List.filter_append, List.length_append]
  simp [hpx, metaOf, hm]

/-- The duplicate path of POST /audio (index.ts:95-109): when the dedup scan
finds a record with the same hash, the handler answers before any write. -/
theorem postAudio_duplicate_shape (env : Env) (ct : String) (f : FormFile)
    (hashFn : List Nat → String) (extract : List Nat → Except String Extracted)
    (aid pid now snow : String) (existing : MP3Meta)
    (hct : containsSub ct "multipart/form-data" = true)
    (hty : f.ftype = "audio/mpeg" ∨ f.ftype = "audio/mp3")
    (hscan : findFileByHash env.audioKV (hashFn f.bytes) = Except.ok (some existing)) :
    postAudio env ct (some (FormEntry.file f)) hashFn extract aid pid now snow =
      (UploadResult.duplicateOf existing.id existing.filename existing.metadata, env) := by
  rcases hty with h | h <;> simp [postAudio, hct, h, hscan]

/-- The successful path of POST /audio: the result id and the written KV
record. -/
theorem postAudio_ok_shape (env : Env) (ct : String) (f : FormFile)
    (hashFn : List Nat → String) (extract : List Nat → Except String Extracted)
    (aid pid now snow : String) (ex : Extracted)
    (hct : containsSub ct "multipart/form-data" = true)
    (hty : f.ftype = "audio/mpeg" ∨ f.ftype = "audio/mp3")
    (hscan : findFileByHash env.audioKV (hashFn f.bytes) = Except.ok none)
    (hex : extract f.bytes = Except.ok ex) :
    (postAudio env ct (some (FormEntry.file f)) hashFn extract aid pid now snow).1 =
      UploadResult.uploaded aid ∧
    (postAudio env ct (some (FormEntry.file f)) hashFn extract aid pid now snow).2.audioKV =
      kvPut env.audioKV ("audio:" ++ aid)
        (RawVal.metaVal (uploadedMeta f (hashFn f.bytes) aid now ex)) := by
  cases hp : ex.picture.head? with
  | some pic =>
    constructor <;> (rcases hty with h | h <;> simp [postAudio, hct, h, hscan, hex, hp])
  | none =>
    constructor <;> (rcases hty with h | h <;> simp [postAudio, hct, h, hscan, hex, hp])

/-- C4: on upload the content hash is computed before any write; whenever the
dedup scan finds an existing record with the same hash, no blob write, no
key-value write and no project creation occurs and the response is a 400
echoing the existing record's id, filename and metadata; consequently,
uploading identical bytes twice sequentially stores exactly one AudioRecord
and the second call reports a duplicate carrying the first call's id. -/
theorem upload_dedup :
    (∀ (env : Env) (ct : String) (f : FormFile) (hashFn : List Nat → String)
       (extract : List Nat → Except String Extracted) (aid pid now snow : String)
       (existing : MP3Meta),
       containsSub ct "multipart/form-data" = true →
       (f.ftype = "audio/mpeg" ∨ f.ftype = "audio/mp3") →
       findFileByHash env.audioKV (hashFn f.bytes) = Except.ok (some existing) →
       postAudio env ct (some (FormEntry.file f)) hashFn extract aid pid now snow =
         (UploadResult.duplicateOf existing.id existing.filename existing.metadata, env) ∧
       uploadStatus (postAudio env ct (some (FormEntry.file f)) hashFn extract
         aid pid now snow).1 = 400) ∧
    (∀ (env : Env) (ct : String) (f1 f2 : FormFile) (hashFn : List Nat → String)
       (extract : List Nat → Except String Extracted)
       (aid1 pid1 now1 snow1 aid2 pid2 now2 snow2 : String) (ex : Extracted),
       f1.bytes = f2.bytes →
       containsSub ct "multipart/form-data" = true →
       (f1.ftype = "audio/mpeg" ∨ f1.ftype = "audio/mp3") →
       (f2.ftype = "audio/mpeg" ∨ f2.ftype = "audio/mp3") →
       findFileByHash env.audioKV (hashFn f1.bytes) = Except.ok none →
       extract f1.bytes = Except.ok ex →
       (env.audioKV.map Prod.fst).Nodup →
       ("audio:" ++ aid1) ∉ env.audioKV.map Prod.fst →
       (postAudio env ct (some (FormEntry.file f1)) hashFn extract
          aid1 pid1 now1 snow1).1 = UploadResult.uploaded aid1 ∧
       kvGet (postAudio env ct (some (FormEntry.file f1)) hashFn extract
          aid1 pid1 now1 snow1).2.audioKV ("audio:" ++ aid1) =
         some (RawVal.metaVal (uploadedMeta f1 (hashFn f1.bytes) aid1 now1 ex)) ∧
       postAudio (postAudio env ct (some (FormEntry.file f1)) hashFn extract
          aid1 pid1 now1 snow1).2 ct (some (FormEntry.file f2)) hashFn extract
          aid2 pid2 now2 snow2 =
         (UploadResult.duplicateOf aid1 f1.name (some (extractedMeta ex)),
          (postAudio env ct (some (FormEntry.file f1)) hashFn extract
            aid1 pid1 now1 snow1).2) ∧
       countHash (postAudio env ct (some (FormEntry.file f1)) hashFn extract
          aid1 pid1 now1 snow1).2.audioKV (hashFn f1.bytes) = 1) := by
  constructor
  · intro env ct f hashFn extract aid pid now snow existing hct hty hscan
    have hdup := postAudio_duplicate_shape env ct f hashFn extract aid pid now snow
      existing hct hty hscan
    exact ⟨hdup, by rw [hdup]; rfl⟩
  · intro env ct f1 f2 hashFn extract aid1 pid1 now1 snow1 aid2 pid2 now2 snow2 ex
      hb hct hty1 hty2 hscan hex hnd hfresh
    obtain ⟨h1, hkv⟩ := postAudio_ok_shape env ct f1 hashFn extract
      aid1 pid1 now1 snow1 ex hct hty1 hscan hex
    have hmhash : ((uploadedMeta f1 (hashFn f1.bytes) aid1 now1 ex).fileHash ==
        hashFn f1.bytes) = true := by simp [uploadedMeta]
    have hscan2 : findFileByHash (postAudio env ct (some (FormEntry.file f1)) hashFn
        extract aid1 pid1 now1 snow1).2.audioKV (hashFn f2.bytes) =
        Except.ok (some (uploadedMeta f1 (hashFn f1.bytes) aid1 now1 ex)) := by
      rw [hkv, ← hb]
      exact findFileByHash_after_put env.audioKV (hashFn f1.bytes) ("audio:" ++ aid1)
        (uploadedMeta f1 (hashFn f1.bytes) aid1 now1 ex) hscan
        (strStarts_append "audio:" aid1) hmhash hfresh
    have hdup := postAudio_duplicate_shape _ ct f2 hashFn extract aid2 pid2 now2 snow2
      (uploadedMeta f1 (hashFn f1.bytes) aid1 now1 ex) hct hty2 hscan2
    refine ⟨h1, ?_, ?_, ?_⟩
    · rw [hkv]
      exact kvGet_kvPut_self ..
    · rw [hdup]
      simp [uploadedMeta]
    · rw [hkv, kvPut_of_not_mem _ _ _ hfresh,
        countHash_append_match _ _ _ _ (strStarts_append "audio:" aid1) hmhash,
        countHash_eq_zero env.audioKV _ hnd hscan]

theorem upload_dedup_witness :
    postAudio
        ⟨[], [("audio:Z", RawVal.metaVal ⟨"idZ", "z.mp3", "audio/mpeg", 3, "tz", "hh", none, none⟩)], [], []⟩
        "multipart/form-data" (some (FormEntry.file ⟨"a.mp3", "audio/mpeg", [1, 2, 3]⟩))
        (fun _ => "hh") (fun _ => Except.ok ⟨[], none, none, none, none, none, none⟩)
        "A1" "P1" "t1" "t2" =
      (UploadResult.duplicateOf "idZ" "z.mp3" none,
       ⟨[], [("audio:Z", RawVal.metaVal ⟨"idZ", "z.mp3", "audio/mpeg", 3, "tz", "hh", none, none⟩)], [], []⟩) ∧
    (postAudio ⟨[], [], [], []⟩ "multipart/form-data"
        (some (FormEntry.file ⟨"a.mp3", "audio/mpeg", [1, 2, 3]⟩))
        (fun _ => "hh") (fun _ => Except.ok ⟨[], none, none, none, none, none, none⟩)
        "A1" "P1" "t1" "t2").1 = UploadResult.uploaded "A1" ∧
    postAudio
        (postAudio ⟨[], [], [], []⟩ "multipart/form-data"
          (some (FormEntry.file ⟨"a.mp3", "audio/mpeg", [1, 2, 3]⟩))
          (fun _ => "hh") (fun _ => Except.ok ⟨[], none, none, none, none, none, none⟩)
          "A1" "P1" "t1" "t2").2
        "multipart/form-data" (some (FormEntry.file ⟨"b.mp3", "audio/mp3", [1, 2, 3]⟩))
        (fun _ => "hh") (fun _ => Except.ok ⟨[], none, none, none, none, none, none⟩)
        "A2" "P2" "t3" "t4" =
      (UploadResult.duplicateOf "A1" "a.mp3"
        (some (extractedMeta ⟨[], none, none, none, none, none, none⟩)),
       (postAudio ⟨[], [], [], []⟩ "multipart/form-data"
         (some (FormEntry.file ⟨"a.mp3", "audio/mpeg", [1, 2, 3]⟩))
         (fun _ => "hh") (fun _ => Except.ok ⟨[], none, none, none, none, none, none⟩)
         "A1" "P1" "t1" "t2").2) ∧
    countHash (postAudio ⟨[], [], [], []⟩ "multipart/form-data"
        (some (FormEntry.file ⟨"a.mp3", "audio/mpeg", [1, 2, 3]⟩))
        (fun _ => "hh") (fun _ => Except.ok ⟨[], none, none, none, none, none, none⟩)
        "A1" "P1" "t1" "t2").2.audioKV "hh" = 1 := by
  have hpart1 := (upload_dedup.1
    ⟨[], [("audio:Z", RawVal.metaVal ⟨"idZ", "z.mp3", "audio/mpeg", 3, "tz", "hh", none, none⟩)], [], []⟩
    "multipart/form-data" ⟨"a.mp3", "audio/mpeg", [1, 2, 3]⟩
    (fun _ => "hh") (fun _ => Except.ok ⟨[], none, none, none, none, none, none⟩)
    "A1" "P1" "t1" "t2" ⟨"idZ", "z.mp3", "audio/mpeg", 3, "tz", "hh", none, none⟩
    (by decide) (Or.inl rfl) rfl).1
  have hpart2 := upload_dedup.2
    ⟨[], [], [], []⟩ "multipart/form-data"
    ⟨"a.mp3", "audio/mpeg", [1, 2, 3]⟩ ⟨"b.mp3", "audio/mp3", [1, 2, 3]⟩
    (fun _ => "hh") (fun _ => Except.ok ⟨[], none, none, none, none, none, none⟩)
    "A1" "P1" "t1" "t2" "A2" "P2" "t3" "t4" ⟨[], none, none, none, none, none, none⟩
    rfl (by decide) (Or.inl rfl) (Or.inr rfl) rfl rfl List.nodup_nil (by simp)
  exact ⟨hpart1, hpart2.1, hpart2.2.2.1, hpart2.2.2.2⟩

/-- C6: when metadata extraction throws, the whole upload aborts with a 500
and nothing is persisted — the returned state is the input state, so no audio
blob write, no key-value metadata write and no project creation occur. -/
theorem upload_extract_error_aborts (env : Env) (ct : String) (f : FormFile)
    (hashFn : List Nat → String) (extract : List Nat → Except String Extracted)
    (aid pid now snow msg : String)
    (hct : containsSub ct "multipart/form-data" = true)
    (hty : f.ftype = "audio/mpeg" ∨ f.ftype = "audio/mp3")
    (hscan : findFileByHash env.audioKV (hashFn f.bytes) = Except.ok none)
    (hex : extract f.bytes = Except.error msg) :
    postAudio env ct (some (FormEntry.file f)) hashFn extract aid pid now snow =
      (UploadResult.serverError ("Error extracting metadata: " ++ msg), env) ∧
    uploadStatus (postAudio env ct (some (FormEntry.file f)) hashFn extract
      aid pid now snow).1 = 500 := by
  have hmain : postAudio env ct (some (FormEntry.file f)) hashFn extract aid pid now snow =
      (UploadResult.serverError ("Error extracting metadata: " ++ msg), env) := by
    rcases hty with h | h <;> simp [postAudio, hct, h, hscan, hex]
  exact ⟨hmain, by rw [hmain]; rfl⟩

theorem upload_extract_error_aborts_witness :
    postAudio ⟨[], [], [], []⟩ "multipart/form-data"
        (some (FormEntry.file ⟨"a.mp3", "audio/mpeg", [1, 2, 3]⟩))
        (fun _ => "hh") (fun _ => Except.error "boom")
        "A1" "P1" "t1" "t2" =
      (UploadResult.serverError "Error extracting metadata: boom", ⟨[], [], [], []⟩) ∧
    uploadStatus (postAudio ⟨[], [], [], []⟩ "multipart/form-data"
        (some (FormEntry.file ⟨"a.mp3", "audio/mpeg", [1, 2, 3]⟩))
        (fun _ => "hh") (fun _ => Except.error "boom")
        "A1" "P1" "t1" "t2").1 = 500 := by
  have h := upload_extract_error_aborts ⟨[], [], [], []⟩ "multipart/form-data"
    ⟨"a.mp3", "audio/mpeg", [1, 2, 3]⟩ (fun _ => "hh") (fun _ => Except.error "boom")
    "A1" "P1" "t1" "t2" "boom" (by decide) (Or.inl rfl) rfl rfl
  exact ⟨h.1, h.2⟩

/-- C10: a POST /audio upload whose file content type is neither audio/mpeg
nor audio/mp3 is rejected with a 400 before any hash computation, dedup scan,
store write or project creation — the outcome is the same for every hash
function and extractor and the returned state is the input state. -/
theorem upload_rejects_bad_type (env : Env) (ct : String) (f : FormFile)
    (hashFn : List Nat → String) (extract : List Nat → Except String Extracted)
    (aid pid now snow : String)
    (hct : containsSub ct "multipart/form-data" = true)
    (hty1 : ¬ f.ftype = "audio/mpeg") (hty2 : ¬ f.ftype = "audio/mp3") :
    postAudio env ct (some (FormEntry.file f)) hashFn extract aid pid now snow =
      (UploadResult.badRequest "Invalid file type", env) ∧
    uploadStatus (postAudio env ct (some (FormEntry.file f)) hashFn extract
      aid pid now snow).1 = 400 := by
  have hmain : postAudio env ct (some (FormEntry.file f)) hashFn extract aid pid now snow =
      (UploadResult.badRequest "Invalid file type", env) := by
    simp [postAudio, hct, hty1, hty2]
  exact ⟨hmain, by rw [hmain]; rfl⟩

theorem upload_rejects_bad_type_witness :
    postAudio ⟨[], [], [], []⟩ "multipart/form-data"
        (some (FormEntry.file ⟨"pic.png", "image/png", [1, 2, 3]⟩))
        (fun _ => "hh") (fun _ => Except.ok ⟨[], none, none, none, none, none, none⟩)
        "A1" "P1" "t1" "t2" =
      (UploadResult.badRequest "Invalid file type", ⟨[], [], [], []⟩) ∧
    uploadStatus (postAudio ⟨[], [], [], []⟩ "multipart/form-data"
        (some (FormEntry.file ⟨"pic.png", "image/png", [1, 2, 3]⟩))
        (fun _ => "hh") (fun _ => Except.ok ⟨[], none, none, none, none, none, none⟩)
        "A1" "P1" "t1" "t2").1 = 400 := by
  have h := upload_rejects_bad_type ⟨[], [], [], []⟩ "multipart/form-data"
    ⟨"pic.png", "image/png", [1, 2, 3]⟩ (fun _ => "hh")
    (fun _ => Except.ok ⟨[], none, none, none, none, none, none⟩)
    "A1" "P1" "t1" "t2" (by decide) (by decide) (by decide)
  exact ⟨h.1, h.2⟩

/-- C7 counterexample: after a successful upload the AudioRecord lives in the
KV store under `audio:{id}` and the bytes in the blob store under `{id}.mp3`,
yet PUT /audio/:id answers 404 and changes nothing, because its existence
check (index.ts:359) reads `audio:{id}` from the blob store, where upload
never wrote — so the update neither replaces the stored bytes nor mutates
the record. -/
theorem putAudio_misses_uploaded_record :
    kvGet (postAudio ⟨[], [], [], []⟩ "multipart/form-data"
        (some (FormEntry.file ⟨"song.mp3", "audio/mpeg", [1, 2, 3]⟩))
        (fun _ => "hsh") (fun _ => Except.ok ⟨[], none, none, none, none, none, none⟩)
        "aid1" "pid1" "t1" "t2").2.audioKV "audio:aid1" =
      some (RawVal.metaVal (uploadedMeta ⟨"song.mp3", "audio/mpeg", [1, 2, 3]⟩
        "hsh" "aid1" "t1" ⟨[], none, none, none, none, none, none⟩)) ∧
    kvGet (postAudio ⟨[], [], [], []⟩ "multipart/form-data"
        (some (FormEntry.file ⟨"song.mp3", "audio/mpeg", [1, 2, 3]⟩))
        (fun _ => "hsh") (fun _ => Except.ok ⟨[], none, none, none, none, none, none⟩)
        "aid1" "pid1" "t1" "t2").2.audioFiles "aid1.mp3" =
      some (R2Val.bin [1, 2, 3], "audio/mpeg") ∧
    putAudio (postAudio ⟨[], [], [], []⟩ "multipart/form-data"
        (some (FormEntry.file ⟨"song.mp3", "audio/mpeg", [1, 2, 3]⟩))
        (fun _ => "hsh") (fun _ => Except.ok ⟨[], none, none, none, none, none, none⟩)
        "aid1" "pid1" "t1" "t2").2 "aid1" (some ⟨"new.mp3", "audio/mpeg", [4, 5]⟩) "t9" =
      (PutResult.notFound,
       (postAudio ⟨[], [], [], []⟩ "multipart/form-data"
         (some (FormEntry.file ⟨"song.mp3", "audio/mpeg", [1, 2, 3]⟩))
         (fun _ => "hsh") (fun _ => Except.ok ⟨[], none, none, none, none, none, none⟩)
         "aid1" "pid1" "t1" "t2").2) := by
  refine ⟨rfl, rfl, rfl⟩

/-- C7 amended: PUT /audio/:id checks for `audio:{id}` in the audio blob
store rather than in the KV record store; when that key is absent — as it is
for every record created by upload, which stores only `{id}.mp3` there — the
update returns 404 and leaves every store unchanged.  When `audio:{id}` does
hold a record in the blob store, the handler replaces the stored bytes under
`{id}.mp3` and writes back a record replacing filename, contentType, size and
also createdAt (fileHash and coverArt are kept) into the blob store, leaving
the key-value record store untouched. -/
theorem putAudio_behavior :
    (∀ (env : Env) (id : String) (file : Option FormFile) (now : String),
       kvGet env.audioFiles ("audio:" ++ id) = none →
       putAudio env id file now = (PutResult.notFound, env)) ∧
    (∀ (env : Env) (id : String) (f : FormFile) (now ct0 : String) (m : MP3Meta),
       kvGet env.audioFiles ("audio:" ++ id) = some (R2Val.txt (RawVal.metaVal m), ct0) →
       putAudio env id (some f) now =
         (PutResult.updated id,
          { env with audioFiles := (
              kvPut (kvPut env.audioFiles (id ++ ".mp3") (R2Val.bin f.bytes, f.ftype))
                ("audio:" ++ id)
                (R2Val.txt (RawVal.metaVal
                  { m with filename := f.name, contentType := f.ftype,
                           size := f.bytes.length, createdAt := now }), "")) }) ∧
       (putAudio env id (some f) now).2.audioKV = env.audioKV ∧
       ({ m with filename := f.name, contentType := f.ftype,
                 size := f.bytes.length, createdAt := now } : MP3Meta).fileHash =
         m.fileHash ∧
       ({ m with filename := f.name, contentType := f.ftype,
                 size := f.bytes.length, createdAt := now } : MP3Meta).coverArt =
         m.coverArt ∧
       ({ m with filename := f.name, contentType := f.ftype,
                 size := f.bytes.length, createdAt := now } : MP3Meta).createdAt = now) := by
  constructor
  · intro env id file now h
    simp [putAudio, h]
  · intro env id f now ct0 m h
    have hmain : putAudio env id (some f) now =
        (PutResult.updated id,
         { env with audioFiles := (
             kvPut (kvPut env.audioFiles (id ++ ".mp3") (R2Val.bin f.bytes, f.ftype))
               ("audio:" ++ id)
               (R2Val.txt (RawVal.metaVal
                 { m with filename := f.name, contentType := f.ftype,
                          size := f.bytes.length, createdAt := now }), "")) }) := by
      simp [putAudio, h, parseR2Text]
    exact ⟨hmain, by rw [hmain], rfl, rfl, rfl⟩

theorem putAudio_behavior_witness :
    putAudio ⟨[("x.mp3", (R2Val.bin [7], "audio/mpeg"))], [], [], []⟩ "x"
        (some ⟨"n.mp3", "audio/mpeg", [4, 5]⟩) "t9" =
      (PutResult.notFound, ⟨[("x.mp3", (R2Val.bin [7], "audio/mpeg"))], [], [], []⟩) ∧
    putAudio
        ⟨[("audio:y", (R2Val.txt (RawVal.metaVal
            ⟨"y", "old.mp3", "audio/mpeg", 9, "t0", "hY", none, none⟩), "ct"))], [], [], []⟩
        "y" (some ⟨"new.mp3", "audio/mp3", [4, 5, 6]⟩) "t9" =
      (PutResult.updated "y",
       { (⟨[("audio:y", (R2Val.txt (RawVal.metaVal
             ⟨"y", "old.mp3", "audio/mpeg", 9, "t0", "hY", none, none⟩), "ct"))], [], [], []⟩ : Env) with
         audioFiles := (
           kvPut (kvPut [("audio:y", (R2Val.txt (RawVal.metaVal
               ⟨"y", "old.mp3", "audio/mpeg", 9, "t0", "hY", none, none⟩), "ct"))]
               ("y" ++ ".mp3") (R2Val.bin [4, 5, 6], "audio/mp3"))
             ("audio:" ++ "y")
             (R2Val.txt (RawVal.metaVal
               ⟨"y", "new.mp3", "audio/mp3", 3, "t9", "hY", none, none⟩), "")) }) := by
  constructor
  · exact putAudio_behavior.1 ⟨[("x.mp3", (R2Val.bin [7], "audio/mpeg"))], [], [], []⟩
      "x" (some ⟨"n.mp3", "audio/mpeg", [4, 5]⟩) "t9" rfl
  · exact (putAudio_behavior.2
      ⟨[("audio:y", (R2Val.txt (RawVal.metaVal
          ⟨"y", "old.mp3", "audio/mpeg", 9, "t0", "hY", none, none⟩), "ct"))], [], [], []⟩
      "y" ⟨"new.mp3", "audio/mp3", [4, 5, 6]⟩ "t9" "ct"
      ⟨"y", "old.mp3", "audio/mpeg", 9, "t0", "hY", none, none⟩ rfl).1
